import Mathlib

/-!
# Verification of the asyncnsq TCP client core

Shallow embedding of `nsqio/tcp/connection.py`, `nsqio/tcp/messages.py` and
`nsqio/tcp/reader.py`.  Byte strings are modelled as `String`,
`asyncio.Future` objects as natural-number identifiers allocated from a
counter, and the single-threaded event loop as explicit state passing: each
Python method becomes a pure function from a connection (or reader) state to
a new state.  `Option`/`Except` model raised exceptions
(`deque.popleft` on an empty deque, `TypeError`, `RuntimeWarning`,
`ValueError`, failed `assert`).
-/

namespace Nsqio

/-- Python exception classes that the modelled code can raise. -/
inductive PyErr
  | assertionError
  | typeError
  | runtimeWarning
  | valueError
  deriving Repr, DecidableEq

/-- The only callback passed to `TcpConnection.execute` in the repository is
`self._start_upgrading` (from `identify`); `None` is `Option.none`. -/
inductive Cb
  | startUpgrading
  deriving Repr, DecidableEq

/-- An entry of the `_cmd_waiters` deque: the pending future (identified by
its allocation number), whether that future has been cancelled, and the
callback stored with it. -/
structure Waiter where
  fid : Nat
  cancelled : Bool
  cb : Option Cb
  deriving Repr, DecidableEq

/-- Ghost log entry: future `fid` was resolved with `payload`.
`viaWaiter` is `true` when the resolution happened in `_parse_data` by
popping the waiter FIFO, and `false` when `execute` resolved the future
synchronously (`fut.set_result(b"OK")`). Entries are appended in resolution
order. -/
structure Resolution where
  fid : Nat
  viaWaiter : Bool
  payload : String
  deriving Repr, DecidableEq

/-- Which parser object `self._parser` currently is (`Reader`,
`SnappyReader(...)` or `DeflateReader(...)` from `protocol.py`). -/
inductive ParserKind
  | plain
  | snappy
  | deflate
  deriving Repr, DecidableEq

/-- Ghost log of the transport upgrades performed by `identify`. -/
inductive UpgradeAction
  | tls
  | snappy
  | deflate
  deriving Repr, DecidableEq

/-- A decoded NSQ frame, as returned by `self._parser.gets()`:
`(FRAME_TYPE_RESPONSE, payload)`, `(FRAME_TYPE_ERROR, payload)` or
`(FRAME_TYPE_MESSAGE, (ts, attempts, id, body))`. -/
inductive Frame
  | response (payload : String)
  | error (payload : String)
  | message (timestamp : Int) (attempts : Nat) (message_id : String) (body : String)
  deriving Repr, DecidableEq

/-- A message delivered to `self._queue` by `_on_message_hook`. -/
structure QMsg where
  timestamp : Int
  attempts : Nat
  message_id : String
  body : String
  deriving Repr, DecidableEq

/-- State of one `TcpConnection`.  `nextFut` is the allocation counter for
future identities; `resolutions` is the ghost log of resolved futures;
`written` is the byte strings passed to `self._writer.write` in order;
`parserFrames` are the complete frames currently buffered inside the parser
(frame-level model of its byte buffer); `msgCount`/`finCount`/`reqCount` are
ghost counters of MESSAGE frames received and FIN/REQ commands executed;
`actions` is the ghost log of upgrades; `closeEvents` counts calls to
`self._on_close_flag.set()`. -/
structure ConnState where
  nextFut : Nat
  cmdWaiters : List Waiter
  resolutions : List Resolution
  written : List String
  parserFrames : List Frame
  parserKind : ParserKind
  isUpgrading : Bool
  closing : Bool
  closed : Bool
  transportClosed : Bool
  readerCancelled : Bool
  closeEvents : Nat
  inFlight : Int
  queue : List QMsg
  msgCount : Nat
  finCount : Nat
  reqCount : Nat
  actions : List UpgradeAction
  tlsWrapped : Bool
  deriving Repr, DecidableEq

/-- A fresh connection, as built by `TcpConnection.__init__`. -/
def initConn : ConnState :=
  { nextFut := 0, cmdWaiters := [], resolutions := [], written := []
    parserFrames := [], parserKind := .plain, isUpgrading := false
    closing := false, closed := false, transportClosed := false
    readerCancelled := false, closeEvents := 0, inFlight := 0, queue := []
    msgCount := 0, finCount := 0, reqCount := 0, actions := [], tlsWrapped := false }

/-- Modelled from the spec: the heartbeat sentinel constant `HEARTBEAT` of
the missing `nsqio/tcp/consts.py` — "a RESPONSE frame whose payload is the
ASCII literal `_heartbeat_`". -/
def HEARTBEAT : String := "_heartbeat_"

/-- Modelled from the spec: big-endian `u32` encoder used for command
bodies (`u32 body_len_BE | body`), one byte per `Char`. -/
def u32be (n : Nat) : String :=
  String.mk [Char.ofNat (n / 2 ^ 24 % 256), Char.ofNat (n / 2 ^ 16 % 256),
    Char.ofNat (n / 2 ^ 8 % 256), Char.ofNat (n % 256)]

/-- Modelled from the spec: `encode_command` of the missing
`nsqio/tcp/protocol.py` — "`CMD[ arg]*\n`, optionally followed by
`u32 body_len_BE | body`". -/
def encodeCommand (command : String) (args : List String) (data : Option String) : String :=
  command ++ String.join (args.map (fun a => " " ++ a)) ++ "\n" ++
    match data with
    | none => ""
    | some d => u32be d.length ++ d

/-- The fire-and-forget command tuple of `connection.py` line 96:
`(b"NOP", b"FIN", b"RDY", b"REQ", b"TOUCH")`. -/
def fireAndForget : List String := ["NOP", "FIN", "RDY", "REQ", "TOUCH"]

/-- First half of `TcpConnection.execute` (lines 94–99): allocate the
future; for fire-and-forget commands resolve it to `"OK"` immediately,
otherwise append `(fut, cb)` to `self._cmd_waiters`.  Returns the future's
identity and the new state.  No bytes have been written yet. -/
def executePhase1 (command : String) (cb : Option Cb) (s : ConnState) : Nat × ConnState :=
  let fid := s.nextFut
  let s := { s with nextFut := fid + 1 }
  if command ∈ fireAndForget then
    (fid, { s with resolutions := s.resolutions ++ [⟨fid, false, "OK"⟩] })
  else
    (fid, { s with cmdWaiters := s.cmdWaiters ++ [⟨fid, false, cb⟩] })

/-- Second half of `TcpConnection.execute` (lines 101–107): encode and
write the command bytes, then for `FIN`/`REQ` set
`self._in_flight = max(0, self._in_flight - 1)` (ghost counters track the
number of FIN and REQ commands executed). -/
def executePhase2 (command : String) (args : List String) (data : Option String)
    (s : ConnState) : ConnState :=
  let s := { s with written := s.written ++ [encodeCommand command args data] }
  if command = "FIN" ∨ command = "REQ" then
    { s with inFlight := max 0 (s.inFlight - 1)
             finCount := if command = "FIN" then s.finCount + 1 else s.finCount
             reqCount := if command = "REQ" then s.reqCount + 1 else s.reqCount }
  else s

/-- `TcpConnection.execute` after the argument checks: phase 1 (future and
waiter bookkeeping) followed by phase 2 (write and in-flight tracking). -/
def executeCore (command : String) (args : List String) (data : Option String)
    (cb : Option Cb) (s : ConnState) : Nat × ConnState :=
  let p := executePhase1 command cb s
  (p.1, executePhase2 command args data p.2)

/-- `TcpConnection.execute` (lines 85–108) including the entry checks: the
`assert` that the stream reader is alive, then `TypeError` when the command
is `None` or any positional argument is `None`.  On error nothing is
written, the waiter FIFO and `in_flight` are untouched (the raise happens
before any mutation, so the caller's state `s` is unchanged). -/
def execute (command : Option String) (args : List (Option String)) (data : Option String)
    (cb : Option Cb) (readerAtEof : Bool) (s : ConnState) :
    Except PyErr (Nat × ConnState) :=
  if readerAtEof then .error .assertionError
  else
    match command with
    | none => .error .typeError
    | some c =>
      if none ∈ args then .error .typeError
      else .ok (executeCore c (args.filterMap id) data cb s)

/-- `TcpConnection._pulse`: write an encoded `NOP` command. -/
def pulse (s : ConnState) : ConnState :=
  { s with written := s.written ++ [encodeCommand "NOP" [] none] }

/-- Invoke the callback stored with a waiter (`cb(resp)` in `_parse_data`);
`_start_upgrading` sets `self._is_upgrading = True`. -/
def applyCb (cb : Option Cb) (s : ConnState) : ConnState :=
  match cb with
  | some .startUpgrading => { s with isUpgrading := true }
  | none => s

/-- The RESPONSE/ERROR arm of `_parse_data`:
`waiter, cb = self._cmd_waiters.popleft()` followed by
`if not waiter.cancelled(): waiter.set_result(resp); cb(resp)`.
`none` models the `IndexError` of `popleft` on an empty deque. -/
def popAndResolve (payload : String) (s : ConnState) : Option ConnState :=
  match s.cmdWaiters with
  | [] => none
  | w :: rest =>
    if w.cancelled then some { s with cmdWaiters := rest }
    else some (applyCb w.cb
      { s with cmdWaiters := rest
               resolutions := s.resolutions ++ [⟨w.fid, true, payload⟩] })

/-- Dispatch of one decoded frame, mirroring `_parse_data` lines 258–282:
a heartbeat RESPONSE answers with `NOP` and touches no waiter; any other
RESPONSE and every ERROR pops and resolves the head waiter; a MESSAGE
increments `in_flight` and enqueues the message (`_on_message_hook`). -/
def parseFrameObj (fr : Frame) (s : ConnState) : Option ConnState :=
  match fr with
  | .response p =>
    if p = HEARTBEAT then some (pulse s) else popAndResolve p s
  | .error p => popAndResolve p s
  | .message ts att mid body =>
    some { s with inFlight := s.inFlight + 1
                  msgCount := s.msgCount + 1
                  queue := s.queue ++ [⟨ts, att, mid, body⟩] }

/-- Dispatch a list of frames in order, stopping with `none` if a dispatch
raises.  `parseFrameObj` never touches `parserFrames`, so the
`while is_continue: is_continue = self._parse_data()` loop of
`_read_buffer` is exactly this fold over the frames buffered at entry. -/
def drainFrames : List Frame → ConnState → Option ConnState
  | [], s => some s
  | fr :: rest, s => (parseFrameObj fr s).bind (drainFrames rest)

/-- `TcpConnection._read_buffer`: drain every buffered frame. -/
def readBuffer (s : ConnState) : Option ConnState :=
  drainFrames s.parserFrames { s with parserFrames := [] }

/-- One iteration of the ingress loop `_read_data` (lines 221–233) after a
successful socket read decoding to `frames`: `self._parser.feed(data)`,
then `not self._is_upgrading and self._read_buffer()` — while upgrading the
frames stay buffered and nothing is drained. -/
def readStep (frames : List Frame) (s : ConnState) : Option ConnState :=
  if s.isUpgrading then some { s with parserFrames := s.parserFrames ++ frames }
  else readBuffer { s with parserFrames := s.parserFrames ++ frames }

/-- `TcpConnection._do_close` (lines 164–174): a no-op when already closed;
otherwise set `closed`, reset `closing`, close the transport, cancel the
ingress task and set the closed event (counted by `closeEvents`). -/
def doClose (s : ConnState) : ConnState :=
  if s.closed then s
  else
    { s with closed := true, closing := false, transportClosed := true
             readerCancelled := true, closeEvents := s.closeEvents + 1 }

/-- `TcpConnection.close`: just `self._do_close()`. -/
def close (s : ConnState) : ConnState := doClose s

/-- The EOF exit of `_read_data` (lines 239–241): `self._closing = True`
then `self._loop.call_soon(self._do_close, None)`. -/
def eofClose (s : ConnState) : ConnState := doClose { s with closing := true }

/-- The `closed` property without its EOF side branch: `self._closing or
self._closed`. -/
def reportsClosed (s : ConnState) : Bool := s.closing || s.closed

/-- Cancellation of a command future by its awaiting caller
(`waiter.cancelled()` then reads true in `_parse_data`). -/
def cancelFut (fid : Nat) (s : ConnState) : ConnState :=
  { s with cmdWaiters :=
      s.cmdWaiters.map (fun w => if w.fid = fid then { w with cancelled := true } else w) }

/-- `TcpConnection._upgrade_to_tls`, abstracted to its state effects: the
socket is wrapped in TLS (real I/O: cancel the ingress task, wrap the raw
socket, check `BIN_OK`, restart the task).  The ghost log records the
action. -/
def upgradeToTls (s : ConnState) : ConnState :=
  { s with tlsWrapped := true, actions := s.actions ++ [.tls] }

/-- `TcpConnection._upgrade_to_snappy`: swap the parser for
`SnappyReader(self._parser.buffer)` (the buffered frames are carried over),
append a synthetic `(fut, None)` waiter and return the future. -/
def upgradeToSnappy (s : ConnState) : Nat × ConnState :=
  let fid := s.nextFut
  (fid, { s with nextFut := fid + 1, parserKind := .snappy
                 cmdWaiters := s.cmdWaiters ++ [⟨fid, false, none⟩]
                 actions := s.actions ++ [.snappy] })

/-- `TcpConnection._upgrade_to_deflate`: same with `DeflateReader`. -/
def upgradeToDeflate (s : ConnState) : Nat × ConnState :=
  let fid := s.nextFut
  (fid, { s with nextFut := fid + 1, parserKind := .deflate
                 cmdWaiters := s.cmdWaiters ++ [⟨fid, false, none⟩]
                 actions := s.actions ++ [.deflate] })

/-- `TcpConnection._finish_upgrading`: `self._read_buffer()` then
`self._is_upgrading = False`. -/
def finishUpgrading (s : ConnState) : Option ConnState :=
  (readBuffer s).map (fun s1 => { s1 with isUpgrading := false })

/-- The send half of `TcpConnection.identify` (line 145):
`self.execute(b"IDENTIFY", data=json.dumps(config), cb=self._start_upgrading)`.
The JSON encoding of the config dict is abstracted as the string `config`. -/
def identifySend (config : String) (s : ConnState) : Nat × ConnState :=
  executeCore "IDENTIFY" [] (some config) (some Cb.startUpgrading) s

/-- The feature flags of the decoded IDENTIFY reply
(`resp_config.get("tls_v1")` and friends). -/
structure Features where
  tls_v1 : Bool
  snappy : Bool
  deflate : Bool
  deriving Repr, DecidableEq

/-- The compression arm of `identify` (lines 154–157): `snappy` wins over
`deflate` (`if ... elif ...`); at most one upgrade happens and its
synthetic future is kept for the final `await`. -/
def compressionStep (features : Features) (s : ConnState) : Option Nat × ConnState :=
  if features.snappy then
    let q := upgradeToSnappy s
    (some q.1, q.2)
  else if features.deflate then
    let q := upgradeToDeflate s
    (some q.1, q.2)
  else ((none : Option Nat), s)

/-- The continuation of `TcpConnection.identify` (lines 146–162) once the
IDENTIFY future has resolved to `resp`.  `features` stands for
`json.loads(resp)` (the JSON decoding is abstracted; it is only consulted
on the non-`"OK"` branch).  The TLS upgrade, when accepted, runs before the
compression upgrade.  Returns the response, the synthetic
compression-upgrade future (still pending; the final `ok = await fut`
happens against a later RESPONSE frame) and the new state. -/
def identifyCont (resp : String) (features : Features) (s : ConnState) :
    Option (String × Option Nat × ConnState) :=
  if resp = "OK" then
    (finishUpgrading s).map (fun s1 => ("OK", none, s1))
  else
    let s1 := if features.tls_v1 then upgradeToTls s else s
    let p := compressionStep features s1
    (finishUpgrading p.2).map (fun s2 => (resp, p.1, s2))

/-- Operations that can happen to a single connection, driven by the event
loop: an `execute` call (with well-formed arguments), one ingress-loop
iteration delivering decoded frames, cancellation of a pending future,
`close()`, and the EOF exit of the ingress loop. -/
inductive Ev
  | exec (command : String) (args : List String) (data : Option String) (cb : Option Cb)
  | read (frames : List Frame)
  | cancel (fid : Nat)
  | close
  | eof
  deriving Repr, DecidableEq

/-- Apply one operation. -/
def applyEv (e : Ev) (s : ConnState) : Option ConnState :=
  match e with
  | .exec c a d cb => some (executeCore c a d cb s).2
  | .read frames => readStep frames s
  | .cancel fid => some (cancelFut fid s)
  | .close => some (close s)
  | .eof => some (eofClose s)

/-- Run a sequence of operations. -/
def run : List Ev → ConnState → Option ConnState
  | [], s => some s
  | e :: tr, s => (applyEv e s).bind (run tr)

/-- The future ids resolved so far, in resolution order. -/
def resolvedIds (s : ConnState) : List Nat := s.resolutions.map (fun r => r.fid)

/-- The ids of the futures resolved by popping the waiter FIFO (the
*replied* command class), in resolution order. -/
def repliedResolutionIds (s : ConnState) : List Nat :=
  (s.resolutions.filter (fun r => r.viaWaiter)).map (fun r => r.fid)

/-- `await fut` on an already-resolved future: look the future up in the
resolution log. `none` means the future is still pending (the caller would
suspend). -/
def awaitResolved (fid : Nat) (s : ConnState) : Option String :=
  (s.resolutions.find? (fun r => r.fid = fid)).map (fun r => r.payload)

/-- `NsqMessage` of `messages.py`: the named-tuple fields plus the
`_is_processed` flag set by `__new__`.  The `conn` back-pointer is modelled
by passing the connection state to the methods explicitly. -/
structure NsqMessage where
  timestamp : Int
  attempts : Nat
  message_id : String
  body : String
  is_processed : Bool
  deriving Repr, DecidableEq

/-- `NsqMessage.fin` (lines 23–32): raise `RuntimeWarning` when already
processed (nothing is sent — the raise precedes the `execute` call, so the
connection state is unchanged); otherwise
`resp = await self.conn.execute(FIN, self.message_id)`, set
`_is_processed = True` and return `resp`. -/
def NsqMessage.fin (m : NsqMessage) (conn : ConnState) :
    Except PyErr (Option String × NsqMessage × ConnState) :=
  if m.is_processed then .error .runtimeWarning
  else
    let p := executeCore "FIN" [m.message_id] none none conn
    .ok (awaitResolved p.1 p.2, { m with is_processed := true }, p.2)

/-- `NsqMessage.req` (lines 34–45): like `fin` with
`execute(REQ, self.message_id, timeout)`. -/
def NsqMessage.req (m : NsqMessage) (timeout : Nat) (conn : ConnState) :
    Except PyErr (Option String × NsqMessage × ConnState) :=
  if m.is_processed then .error .runtimeWarning
  else
    let p := executeCore "REQ" [m.message_id, toString timeout] none none conn
    .ok (awaitResolved p.1 p.2, { m with is_processed := true }, p.2)

/-- `NsqMessage.touch` (lines 47–53): the double-ack check, then
`execute(TOUCH, self.message_id)` — `_is_processed` is not set. -/
def NsqMessage.touch (m : NsqMessage) (conn : ConnState) :
    Except PyErr (Option String × NsqMessage × ConnState) :=
  if m.is_processed then .error .runtimeWarning
  else
    let p := executeCore "TOUCH" [m.message_id] none none conn
    .ok (awaitResolved p.1 p.2, m, p.2)

/-- An inbox entry of the Reader: a message (here: which connection it came
from, its id, and its processed flag) or the `None` sentinel pushed by
`unsubscribe`. -/
structure QueuedMsg where
  connIdx : Nat
  message_id : String
  is_processed : Bool
  deriving Repr, DecidableEq

/-- State of a `Reader` (`reader.py`): its connections, the unified inbox
queue, the `_is_subscribe` flag and the `_num_readers` counter of active
`messages()` iterators. -/
structure ReaderState where
  connections : List ConnState
  queue : List (Option QueuedMsg)
  is_subscribe : Bool
  num_readers : Nat
  deriving Repr, DecidableEq

/-- `Reader.set_max_in_flight` (lines 153–155): `conn.execute(RDY, n)` on
every connection. -/
def setMaxInFlight (n : Nat) (r : ReaderState) : ReaderState :=
  { r with connections :=
      r.connections.map (fun c => (executeCore "RDY" [toString n] none none c).2) }

/-- One round of the sentinel loop of `unsubscribe` (lines 207–210): push
one `None` per active consumer, then sleep; during the sleep `d` consumers
wake, each taking one item from the inbox front and exiting (the consumer
loop re-checks `_is_subscribe`, now false, after one `get`). -/
def roundStep (d : Nat) (r : ReaderState) : ReaderState :=
  let r := { r with queue := r.queue ++ List.replicate r.num_readers none }
  let k := min d r.num_readers
  { r with queue := r.queue.drop k, num_readers := r.num_readers - k }

/-- The `while self._num_readers > 0` polling loop of `unsubscribe`.  The
oracle `exits` says how many consumers exit during each sleep; when the
oracle is exhausted with consumers still active the loop has not terminated
and `none` is returned. -/
def sentinelRounds : List Nat → ReaderState → Option ReaderState
  | [], r => if r.num_readers = 0 then some r else none
  | d :: ds, r =>
    if r.num_readers = 0 then some r
    else sentinelRounds ds (roundStep d r)

/-- `result.req(0)` on one drained inbox message (lines 218–224): a
processed message raises `RuntimeWarning`, which the `except` swallows;
otherwise `REQ <id> 0` is executed on the message's connection. -/
def reqQueued (m : QueuedMsg) (conns : List ConnState) : List ConnState :=
  if m.is_processed then conns
  else
    match conns.get? m.connIdx with
    | none => conns
    | some c => conns.set m.connIdx (executeCore "REQ" [m.message_id, "0"] none none c).2

/-- The drain loop of `unsubscribe` (lines 215–224): pop every remaining
inbox item; `None` sentinels are skipped, every message gets `req(0)`. -/
def drainQueue : List (Option QueuedMsg) → List ConnState → List ConnState
  | [], conns => conns
  | none :: rest, conns => drainQueue rest conns
  | some m :: rest, conns => drainQueue rest (reqQueued m conns)

/-- `Reader.unsubscribe` (lines 198–226): `ValueError` unless subscribed;
then (1) `set_max_in_flight(0)`, (2) clear `_is_subscribe`, (3) the
sentinel polling loop, (4) drain the inbox re-queueing every message.
`.ok none` means the polling loop outran the `exits` oracle. -/
def unsubscribe (exits : List Nat) (r : ReaderState) :
    Except PyErr (Option ReaderState) :=
  if !r.is_subscribe then .error .valueError
  else
    match sentinelRounds exits { setMaxInFlight 0 r with is_subscribe := false } with
    | none => .ok none
    | some r3 =>
      .ok (some { r3 with connections := drainQueue r3.queue r3.connections, queue := [] })

/-- Starting `Reader.messages` (lines 169–176): the async generator raises
`ValueError` on its first step when not subscribed — before any inbox read
and before `_num_readers` is touched; otherwise the reader count goes up. -/
def messagesInit (r : ReaderState) : Except PyErr ReaderState :=
  if !r.is_subscribe then .error .valueError
  else .ok { r with num_readers := r.num_readers + 1 }

/-- Starting `Reader.wait_messages` (lines 161–167): the generator raises
`ValueError` on its first step when not subscribed, before yielding any
future; the reader state is untouched. -/
def waitMessagesInit (r : ReaderState) : Except PyErr ReaderState :=
  if !r.is_subscribe then .error .valueError
  else .ok r

/-- The connection-state fields that frame dispatch (`_parse_data`) never
touches, as one tuple. -/
def stableFields (s : ConnState) :=
  (s.closing, s.closed, s.transportClosed, s.readerCancelled, s.closeEvents,
    s.nextFut, s.parserFrames, s.actions, s.parserKind, s.tlsWrapped,
    s.finCount, s.reqCount)

/-- Like `stableFields` but without the parser buffer (which `_read_buffer`
does consume). -/
def stableFields2 (s : ConnState) :=
  (s.closing, s.closed, s.transportClosed, s.readerCancelled, s.closeEvents,
    s.nextFut, s.actions, s.parserKind, s.tlsWrapped, s.finCount, s.reqCount)

/-- Close-lifecycle invariant: once `closed` is set the transport has been
closed and the ingress task cancelled, and the closed event has been
signalled exactly once. -/
def CloseInv (s : ConnState) : Prop :=
  (s.closed = true → s.transportClosed = true ∧ s.readerCancelled = true) ∧
  s.closeEvents = (if s.closed then 1 else 0)

/-- Future-ordering invariant of a connection: ids in the waiter FIFO are
strictly increasing and below the allocation counter, the replied-class
resolution log is strictly increasing in id, and every replied resolution
is older (smaller id) than every still-pending waiter. -/
structure ConnInv (s : ConnState) : Prop where
  resBound : ∀ r ∈ s.resolutions, r.fid < s.nextFut
  waitBound : ∀ w ∈ s.cmdWaiters, w.fid < s.nextFut
  waitSorted : List.Pairwise (fun x y => x < y) (s.cmdWaiters.map (fun w => w.fid))
  repliedSorted : List.Pairwise (fun x y => x < y) (repliedResolutionIds s)
  resBeforeWait : ∀ r ∈ s.resolutions, r.viaWaiter = true →
    ∀ w ∈ s.cmdWaiters, r.fid < w.fid

/-- `true` when the next operation would not clamp the in-flight counter:
a `FIN`/`REQ` execute only happens with at least one message in flight. -/
def noClampEv (e : Ev) (s : ConnState) : Bool :=
  match e with
  | .exec c _ _ _ => if c = "FIN" ∨ c = "REQ" then decide (1 ≤ s.inFlight) else true
  | _ => true

/-- `noClampEv` holds at every step of the trace. -/
def noClampTrace : List Ev → ConnState → Bool
  | [], _ => true
  | e :: tr, s =>
    noClampEv e s &&
      match applyEv e s with
      | some s1 => noClampTrace tr s1
      | none => true

/-- Run a trace from the fresh connection, defaulting to the fresh
connection when a step raises. -/
def runD (tr : List Ev) : ConnState := (run tr initConn).getD initConn

/-- Extract the reader state from a successful `unsubscribe` result. -/
def okSomeReader (x : Except PyErr (Option ReaderState)) (d : ReaderState) : ReaderState :=
  match x with
  | .ok (some r) => r
  | _ => d

/-- A fresh connection whose upgrading flag is raised. -/
def c6Upgrading : ConnState := { initConn with isUpgrading := true }

/-- The result of the identify continuation on `c6Upgrading` when the
server grants `tls_v1` and `snappy`. -/
def c6OutB : String × Option Nat × ConnState :=
  (identifyCont "FEAT" ⟨true, true, false⟩ c6Upgrading).getD ("", none, initConn)

/-- The connection state after the ingress loop dispatches an IDENTIFY
response to a waiter carrying the `_start_upgrading` callback. -/
def c6ParsedState : ConnState :=
  (parseFrameObj (Frame.response "p")
    { initConn with cmdWaiters := [⟨0, false, some Cb.startUpgrading⟩] }).getD initConn

/-- A subscribed reader with one connection, one active consumer, and two
messages still in the inbox (one already processed, one not). -/
def c7Reader : ReaderState :=
  { connections := [initConn]
    queue := [some ⟨0, "a", true⟩, some ⟨0, "b", false⟩]
    is_subscribe := true
    num_readers := 1 }

/-- The state of `c7Reader` after the sentinel polling loop of
`unsubscribe` (one round in which the single consumer exits). -/
def c7R3 : ReaderState :=
  (sentinelRounds [1] { setMaxInFlight 0 c7Reader with is_subscribe := false }).getD
    c7Reader

theorem executeCore_fst (c : String) (a : List String) (d : Option String) (cb : Option Cb)
    (s : ConnState) : (executeCore c a d cb s).1 = s.nextFut := by
  simp only [executeCore, executePhase1]
  split <;> rfl

theorem executeCore_nextFut (c : String) (a : List String) (d : Option String) (cb : Option Cb)
    (s : ConnState) : (executeCore c a d cb s).2.nextFut = s.nextFut + 1 := by
  simp only [executeCore, executePhase1, executePhase2]
  split <;> split <;> rfl

theorem executeCore_written (c : String) (a : List String) (d : Option String) (cb : Option Cb)
    (s : ConnState) :
    (executeCore c a d cb s).2.written = s.written ++ [encodeCommand c a d] := by
  simp only [executeCore, executePhase1, executePhase2]
  split <;> split <;> rfl

/-- Fields of the connection state that `execute` never touches. -/
theorem executeCore_preserved (c : String) (a : List String) (d : Option String)
    (cb : Option Cb) (s : ConnState) :
    (executeCore c a d cb s).2.closing = s.closing ∧
    (executeCore c a d cb s).2.closed = s.closed ∧
    (executeCore c a d cb s).2.transportClosed = s.transportClosed ∧
    (executeCore c a d cb s).2.readerCancelled = s.readerCancelled ∧
    (executeCore c a d cb s).2.closeEvents = s.closeEvents ∧
    (executeCore c a d cb s).2.isUpgrading = s.isUpgrading ∧
    (executeCore c a d cb s).2.parserFrames = s.parserFrames ∧
    (executeCore c a d cb s).2.parserKind = s.parserKind ∧
    (executeCore c a d cb s).2.actions = s.actions ∧
    (executeCore c a d cb s).2.tlsWrapped = s.tlsWrapped ∧
    (executeCore c a d cb s).2.queue = s.queue ∧
    (executeCore c a d cb s).2.msgCount = s.msgCount := by
  simp only [executeCore, executePhase1, executePhase2]
  split <;> split <;> simp

theorem executeCore_resolutions_ff (c : String) (a : List String) (d : Option String)
    (cb : Option Cb) (s : ConnState) (h : c ∈ fireAndForget) :
    (executeCore c a d cb s).2.resolutions =
      s.resolutions ++ [⟨s.nextFut, false, "OK"⟩] := by
  simp only [executeCore, executePhase1, executePhase2, if_pos h]
  split <;> rfl

theorem executeCore_cmdWaiters_ff (c : String) (a : List String) (d : Option String)
    (cb : Option Cb) (s : ConnState) (h : c ∈ fireAndForget) :
    (executeCore c a d cb s).2.cmdWaiters = s.cmdWaiters := by
  simp only [executeCore, executePhase1, executePhase2, if_pos h]
  split <;> rfl

theorem executeCore_resolutions_rep (c : String) (a : List String) (d : Option String)
    (cb : Option Cb) (s : ConnState) (h : c ∉ fireAndForget) :
    (executeCore c a d cb s).2.resolutions = s.resolutions := by
  simp only [executeCore, executePhase1, executePhase2, if_neg h]
  split <;> rfl

theorem executeCore_cmdWaiters_rep (c : String) (a : List String) (d : Option String)
    (cb : Option Cb) (s : ConnState) (h : c ∉ fireAndForget) :
    (executeCore c a d cb s).2.cmdWaiters = s.cmdWaiters ++ [⟨s.nextFut, false, cb⟩] := by
  simp only [executeCore, executePhase1, executePhase2, if_neg h]
  split <;> rfl

theorem executeCore_track_other (c : String) (a : List String) (d : Option String)
    (cb : Option Cb) (s : ConnState) (h : ¬(c = "FIN" ∨ c = "REQ")) :
    (executeCore c a d cb s).2.inFlight = s.inFlight ∧
    (executeCore c a d cb s).2.finCount = s.finCount ∧
    (executeCore c a d cb s).2.reqCount = s.reqCount := by
  simp only [executeCore, executePhase1, executePhase2, if_neg h]
  split <;> simp

theorem executeCore_track_finreq (c : String) (a : List String) (d : Option String)
    (cb : Option Cb) (s : ConnState) (h : c = "FIN" ∨ c = "REQ") :
    (executeCore c a d cb s).2.inFlight = max 0 (s.inFlight - 1) ∧
    (executeCore c a d cb s).2.finCount =
      (if c = "FIN" then s.finCount + 1 else s.finCount) ∧
    (executeCore c a d cb s).2.reqCount =
      (if c = "REQ" then s.reqCount + 1 else s.reqCount) := by
  simp only [executeCore, executePhase1, executePhase2, if_pos h]
  split <;> simp

/-- C1: for a fire-and-forget command (`NOP`, `FIN`, `RDY`, `REQ`,
`TOUCH`), `execute` returns the freshly allocated future already resolved
to `"OK"` and appends nothing to the waiter FIFO; for any other command a
`(future, cb)` waiter is appended by phase 1 — at which point nothing has
been written yet — and the command bytes are written afterwards by
phase 2. -/
theorem execute_classes_c1 (command : String) (args : List String) (data : Option String)
    (cb : Option Cb) (s : ConnState) :
    (executeCore command args data cb s).1 = s.nextFut ∧
    (command ∈ fireAndForget →
      (executeCore command args data cb s).2.resolutions =
          s.resolutions ++ [⟨s.nextFut, false, "OK"⟩] ∧
      (executeCore command args data cb s).2.cmdWaiters = s.cmdWaiters) ∧
    (command ∉ fireAndForget →
      (executePhase1 command cb s).2.cmdWaiters = s.cmdWaiters ++ [⟨s.nextFut, false, cb⟩] ∧
      (executePhase1 command cb s).2.written = s.written ∧
      (executeCore command args data cb s).2 =
        executePhase2 command args data (executePhase1 command cb s).2 ∧
      (executeCore command args data cb s).2.written =
        s.written ++ [encodeCommand command args data]) := by
  refine ⟨?_, fun h => ⟨?_, ?_⟩, fun h => ⟨?_, ?_, rfl, ?_⟩⟩
  · simp only [executeCore, executePhase1]
    split <;> rfl
  · simp only [executeCore, executePhase1, executePhase2, if_pos h]
    split <;> simp
  · simp only [executeCore, executePhase1, executePhase2, if_pos h]
    split <;> simp
  · simp [executePhase1, if_neg h]
  · simp [executePhase1, if_neg h]
  · simp only [executeCore, executePhase1, executePhase2, if_neg h]
    split <;> simp

/-- C1 witness: `RDY` resolves synchronously with no waiter; `SUB` pushes
its waiter before anything is written. -/
theorem execute_classes_c1_w :
    (executeCore "RDY" ["5"] none none initConn).2.cmdWaiters = [] ∧
    (executeCore "RDY" ["5"] none none initConn).2.resolutions = [⟨0, false, "OK"⟩] ∧
    (executePhase1 "SUB" none initConn).2.cmdWaiters = [⟨0, false, none⟩] ∧
    (executePhase1 "SUB" none initConn).2.written = [] := by
  have h1 := execute_classes_c1 "RDY" ["5"] none none initConn
  have h2 := execute_classes_c1 "SUB" ["t", "c"] none none initConn
  refine ⟨(h1.2.1 (by decide)).2, ?_, ?_, (h2.2.2 (by decide)).2.1⟩
  · have h := (h1.2.1 (by decide)).1
    simpa [initConn] using h
  · have h := (h2.2.2 (by decide)).1
    simpa [initConn] using h

/-- C5: a RESPONSE frame carrying the heartbeat sentinel makes the
connection write the encoded `NOP` command (the bytes `NOP\n`) and leaves
the waiter FIFO untouched, whatever its contents. -/
theorem heartbeat_no_waiter_c5 (s : ConnState) :
    parseFrameObj (Frame.response HEARTBEAT) s = some (pulse s) ∧
    (pulse s).cmdWaiters = s.cmdWaiters ∧
    (pulse s).written = s.written ++ [encodeCommand "NOP" [] none] ∧
    encodeCommand "NOP" [] none = "NOP\n" := by
  refine ⟨by simp [parseFrameObj], rfl, rfl, by decide⟩

/-- C10: `execute` raises `TypeError` when the command is `None` or any
positional argument is `None`; the raise happens before any write, waiter
push or in-flight update, so the connection state is unchanged. -/
theorem execute_typeerror_c10 (command : Option String) (args : List (Option String))
    (data : Option String) (cb : Option Cb) (s : ConnState)
    (h : command = none ∨ none ∈ args) :
    execute command args data cb false s = .error .typeError := by
  rcases h with h | h
  · subst h; simp [execute]
  · cases command with
    | none => simp [execute]
    | some c => simp [execute, h]

/-- C10 witness: a `None` command and a `None` argument both raise. -/
theorem execute_typeerror_c10_w :
    execute none [] none none false initConn = .error .typeError ∧
    execute (some "SUB") [some "t", none] none none false initConn = .error .typeError :=
  ⟨execute_typeerror_c10 none [] none none initConn (Or.inl rfl),
   execute_typeerror_c10 (some "SUB") [some "t", none] none none initConn
     (Or.inr (by simp))⟩

/-- `find?` on a log whose existing entries all have smaller ids finds the
freshly appended entry. -/
theorem find?_append_fresh (l : List Resolution) (n : Nat) (x : Resolution)
    (h : ∀ r ∈ l, r.fid < n) (hx : x.fid = n) :
    (l ++ [x]).find? (fun r => r.fid = n) = some x := by
  induction l with
  | nil => simp [List.find?, hx]
  | cons a l ih =>
    have ha : a.fid < n := h a (by simp)
    have hne : ¬((fun r : Resolution => decide (r.fid = n)) a = true) := by
      simp; omega
    rw [List.cons_append]
    exact (List.find?_cons_of_neg (l ++ [x]) hne).trans
      (ih fun r hr => h r (by simp [hr]))

/-- `executeCore` keeps every logged resolution id below the allocation
counter. -/
theorem executeCore_resBound (command : String) (args : List String) (data : Option String)
    (cb : Option Cb) (s : ConnState) (h : ∀ r ∈ s.resolutions, r.fid < s.nextFut) :
    ∀ r ∈ (executeCore command args data cb s).2.resolutions,
      r.fid < (executeCore command args data cb s).2.nextFut := by
  intro r hr
  rw [executeCore_nextFut]
  by_cases hc : command ∈ fireAndForget
  · rw [executeCore_resolutions_ff command args data cb s hc] at hr
    simp only [List.mem_append, List.mem_singleton] at hr
    rcases hr with hr | hr
    · exact Nat.lt_succ_of_lt (h r hr)
    · subst hr; exact Nat.lt_succ_self _
  · rw [executeCore_resolutions_rep command args data cb s hc] at hr
    exact Nat.lt_succ_of_lt (h r hr)

/-- Awaiting the future returned by `executeCore` for a fire-and-forget
command yields `"OK"` at once. -/
theorem awaitResolved_executeCore_ff (command : String) (args : List String)
    (data : Option String) (cb : Option Cb) (s : ConnState)
    (hcmd : command ∈ fireAndForget) (h : ∀ r ∈ s.resolutions, r.fid < s.nextFut) :
    awaitResolved (executeCore command args data cb s).1
      (executeCore command args data cb s).2 = some "OK" := by
  rw [awaitResolved, executeCore_fst, executeCore_resolutions_ff command args data cb s hcmd,
    find?_append_fresh s.resolutions s.nextFut _ h rfl]
  rfl

/-- C4: when a message is already processed, `fin`, `req` and `touch` all
raise the double-ack `RuntimeWarning` without sending anything (the
connection state is untouched); on an unprocessed message `fin` and `req`
succeed with `"OK"` and set the processed flag, while `touch` succeeds with
`"OK"`, leaves the flag down, and can therefore succeed again. -/
theorem double_ack_c4 (m : NsqMessage) (conn : ConnState) (t : Nat)
    (hb : ∀ r ∈ conn.resolutions, r.fid < conn.nextFut) :
    (m.is_processed = true →
      m.fin conn = .error .runtimeWarning ∧
      m.req t conn = .error .runtimeWarning ∧
      m.touch conn = .error .runtimeWarning) ∧
    (m.is_processed = false →
      (∃ c1, m.fin conn = .ok (some "OK", { m with is_processed := true }, c1)) ∧
      (∃ c2, m.req t conn = .ok (some "OK", { m with is_processed := true }, c2)) ∧
      (∃ c3, m.touch conn = .ok (some "OK", m, c3) ∧
        ∃ c4, m.touch c3 = .ok (some "OK", m, c4))) := by
  constructor
  · intro h
    refine ⟨?_, ?_, ?_⟩ <;> simp [NsqMessage.fin, NsqMessage.req, NsqMessage.touch, h]
  · intro h
    refine ⟨⟨(executeCore "FIN" [m.message_id] none none conn).2, ?_⟩,
      ⟨(executeCore "REQ" [m.message_id, toString t] none none conn).2, ?_⟩,
      ⟨(executeCore "TOUCH" [m.message_id] none none conn).2, ?_, ?_⟩⟩
    · simp [NsqMessage.fin, h,
        awaitResolved_executeCore_ff "FIN" [m.message_id] none none conn (by decide) hb]
    · simp [NsqMessage.req, h,
        awaitResolved_executeCore_ff "REQ" [m.message_id, toString t] none none conn
          (by decide) hb]
    · simp [NsqMessage.touch, h,
        awaitResolved_executeCore_ff "TOUCH" [m.message_id] none none conn (by decide) hb]
    · have hb2 := executeCore_resBound "TOUCH" [m.message_id] none none conn hb
      refine ⟨(executeCore "TOUCH" [m.message_id] none none
        (executeCore "TOUCH" [m.message_id] none none conn).2).2, ?_⟩
      simp [NsqMessage.touch, h,
        awaitResolved_executeCore_ff "TOUCH" [m.message_id] none none
          (executeCore "TOUCH" [m.message_id] none none conn).2 (by decide) hb2]

/-- C4 witness: on a fresh connection, `fin` succeeds once on an
unprocessed message and raises the double-ack warning on a processed
one. -/
theorem double_ack_c4_w :
    (∃ c1, (NsqMessage.mk 0 1 "0123456789abcdef" "body" false).fin initConn =
      .ok (some "OK", NsqMessage.mk 0 1 "0123456789abcdef" "body" true, c1)) ∧
    (NsqMessage.mk 0 1 "0123456789abcdef" "body" true).fin initConn =
      .error .runtimeWarning := by
  have h1 := double_ack_c4 (NsqMessage.mk 0 1 "0123456789abcdef" "body" false) initConn 0
    (by simp [initConn])
  have h2 := double_ack_c4 (NsqMessage.mk 0 1 "0123456789abcdef" "body" true) initConn 0
    (by simp [initConn])
  exact ⟨(h1.2 rfl).1, (h2.1 rfl).1⟩

theorem popAndResolve_stable (p : String) (s s' : ConnState)
    (h : popAndResolve p s = some s') :
    stableFields s' = stableFields s ∧ s'.inFlight = s.inFlight ∧
    s'.msgCount = s.msgCount ∧ s'.written = s.written := by
  cases hw : s.cmdWaiters with
  | nil =>
    simp only [popAndResolve, hw] at h
    cases h
  | cons w rest =>
    simp only [popAndResolve, hw] at h
    split at h
    · obtain rfl := Option.some.inj h
      simp [stableFields]
    · obtain rfl := Option.some.inj h
      cases w.cb with
      | none => simp [applyCb, stableFields]
      | some c => cases c; simp [applyCb, stableFields]

theorem parseFrameObj_stable (fr : Frame) (s s' : ConnState)
    (h : parseFrameObj fr s = some s') : stableFields s' = stableFields s := by
  cases fr with
  | response p =>
    simp only [parseFrameObj] at h
    split at h
    · obtain rfl := Option.some.inj h
      simp [pulse, stableFields]
    · exact (popAndResolve_stable p s s' h).1
  | error p =>
    simp only [parseFrameObj] at h
    exact (popAndResolve_stable p s s' h).1
  | message ts att mid body =>
    simp only [parseFrameObj] at h
    obtain rfl := Option.some.inj h
    simp [stableFields]

theorem drainFrames_stable (frames : List Frame) :
    ∀ s s', drainFrames frames s = some s' → stableFields s' = stableFields s := by
  induction frames with
  | nil =>
    intro s s' h
    obtain rfl := Option.some.inj h
    rfl
  | cons fr rest ih =>
    intro s s' h
    simp only [drainFrames] at h
    cases hm : parseFrameObj fr s with
    | none => rw [hm] at h; cases h
    | some s1 =>
      rw [hm] at h
      exact (ih s1 s' h).trans (parseFrameObj_stable fr s s1 hm)

theorem stable_to_stable2 (a b : ConnState) (h : stableFields a = stableFields b) :
    stableFields2 a = stableFields2 b := by
  simp only [stableFields, Prod.mk.injEq] at h
  simp only [stableFields2, Prod.mk.injEq]
  tauto

theorem readBuffer_stable2 (s s' : ConnState) (h : readBuffer s = some s') :
    stableFields2 s' = stableFields2 s := by
  unfold readBuffer at h
  have h1 := drainFrames_stable s.parserFrames _ _ h
  exact (stable_to_stable2 _ _ h1).trans (by simp [stableFields2])

theorem readStep_stable2 (frames : List Frame) (s s' : ConnState)
    (h : readStep frames s = some s') : stableFields2 s' = stableFields2 s := by
  unfold readStep at h
  split at h
  · obtain rfl := Option.some.inj h
    simp [stableFields2]
  · exact (readBuffer_stable2 _ _ h).trans (by simp [stableFields2])

theorem readStep_upgrading (frames : List Frame) (s : ConnState)
    (h : s.isUpgrading = true) :
    readStep frames s = some { s with parserFrames := s.parserFrames ++ frames } := by
  unfold readStep
  rw [if_pos h]

theorem applyEv_closeInv (e : Ev) (s s' : ConnState) (h : applyEv e s = some s')
    (hs : CloseInv s) :
    CloseInv s' ∧ (reportsClosed s = true → reportsClosed s' = true) := by
  cases e with
  | exec c a d cb =>
    obtain rfl := Option.some.inj h
    have hp := executeCore_preserved c a d cb s
    refine ⟨⟨?_, ?_⟩, ?_⟩
    · rw [hp.2.1, hp.2.2.1, hp.2.2.2.1]; exact hs.1
    · rw [hp.2.2.2.2.1, hp.2.1]; exact hs.2
    · unfold reportsClosed; rw [hp.1, hp.2.1]; exact fun hr => hr
  | read frames =>
    have hst := readStep_stable2 frames s s' h
    simp only [stableFields2, Prod.mk.injEq] at hst
    refine ⟨⟨?_, ?_⟩, ?_⟩
    · rw [hst.2.1, hst.2.2.1, hst.2.2.2.1]; exact hs.1
    · rw [hst.2.2.2.2.1, hst.2.1]; exact hs.2
    · unfold reportsClosed; rw [hst.1, hst.2.1]; exact fun hr => hr
  | cancel fid =>
    obtain rfl := Option.some.inj h
    exact ⟨hs, fun hr => hr⟩
  | close =>
    obtain rfl := Option.some.inj h
    unfold close doClose
    by_cases hc : s.closed = true
    · rw [if_pos hc]
      exact ⟨hs, fun hr => hr⟩
    · rw [if_neg hc]
      have h2 := hs.2
      rw [if_neg hc] at h2
      refine ⟨⟨fun _ => ⟨rfl, rfl⟩, ?_⟩, fun _ => ?_⟩
      · simp [h2]
      · simp [reportsClosed]
  | eof =>
    obtain rfl := Option.some.inj h
    unfold eofClose doClose
    by_cases hc : s.closed = true
    · rw [if_pos (show ({ s with closing := true } : ConnState).closed = true from hc)]
      refine ⟨⟨fun _ => hs.1 hc, hs.2⟩, fun _ => ?_⟩
      simp [reportsClosed]
    · rw [if_neg (show ¬({ s with closing := true } : ConnState).closed = true from hc)]
      have h2 := hs.2
      rw [if_neg hc] at h2
      refine ⟨⟨fun _ => ⟨rfl, rfl⟩, ?_⟩, fun _ => ?_⟩
      · simp [h2]
      · simp [reportsClosed]

theorem run_closeInv (tr : List Ev) :
    ∀ s s', run tr s = some s' → CloseInv s → CloseInv s' := by
  induction tr with
  | nil =>
    intro s s' h hs
    obtain rfl := Option.some.inj h
    exact hs
  | cons e tr ih =>
    intro s s' h hs
    simp only [run] at h
    cases he : applyEv e s with
    | none => rw [he] at h; cases h
    | some s1 =>
      rw [he] at h
      exact ih s1 s' h (applyEv_closeInv e s s1 he hs).1

/-- C8: `close()` is idempotent; in every reachable connection state, once
`closed` is set the transport has been closed and the ingress task
cancelled, the closed event has been signalled exactly once, and
closed-ness (`_closing or _closed`) is monotone under every further
operation. -/
theorem close_lifecycle_c8 (s u v : ConnState) (tr : List Ev) (e : Ev)
    (hu : run tr initConn = some u) (hv : applyEv e u = some v) :
    close (close s) = close s ∧
    (u.closed = true → u.transportClosed = true ∧ u.readerCancelled = true) ∧
    u.closeEvents = (if u.closed then 1 else 0) ∧
    (reportsClosed u = true → reportsClosed v = true) := by
  have hinv : CloseInv u := run_closeInv tr initConn u hu (by simp [CloseInv, initConn])
  refine ⟨?_, hinv.1, hinv.2, (applyEv_closeInv e u v hv hinv).2⟩
  unfold close doClose
  by_cases hc : s.closed
  · simp [hc]
  · simp [hc]

/-- C8 witness: closing a fresh connection twice equals closing it once,
and after one `close` the closed event was signalled exactly once. -/
theorem close_lifecycle_c8_w :
    close (close initConn) = close initConn ∧
    (runD [Ev.close]).closeEvents = (if (runD [Ev.close]).closed then 1 else 0) ∧
    (reportsClosed (runD [Ev.close]) = true →
      reportsClosed (close (runD [Ev.close])) = true) := by
  have h := close_lifecycle_c8 initConn (runD [Ev.close]) (close (runD [Ev.close]))
    [Ev.close] Ev.close (by decide) (by decide)
  exact ⟨h.1, h.2.2.1, h.2.2.2⟩

theorem repliedResolutionIds_mem (s : ConnState) (x : Nat) :
    x ∈ repliedResolutionIds s ↔
      ∃ r ∈ s.resolutions, r.viaWaiter = true ∧ r.fid = x := by
  simp only [repliedResolutionIds, List.mem_map, List.mem_filter]
  constructor
  · rintro ⟨r, ⟨hr, hv⟩, hx⟩
    exact ⟨r, hr, hv, hx⟩
  · rintro ⟨r, hr, hv, hx⟩
    exact ⟨r, ⟨hr, hv⟩, hx⟩

theorem executeCore_connInv (c : String) (a : List String) (d : Option String)
    (cb : Option Cb) (s : ConnState) (hs : ConnInv s) :
    ConnInv (executeCore c a d cb s).2 := by
  have hn := executeCore_nextFut c a d cb s
  by_cases hc : c ∈ fireAndForget
  · have hres := executeCore_resolutions_ff c a d cb s hc
    have hwt := executeCore_cmdWaiters_ff c a d cb s hc
    refine ⟨executeCore_resBound c a d cb s hs.resBound, ?_, ?_, ?_, ?_⟩
    · intro w hw2
      rw [hwt] at hw2
      rw [hn]
      exact Nat.lt_succ_of_lt (hs.waitBound w hw2)
    · rw [hwt]; exact hs.waitSorted
    · have he : repliedResolutionIds (executeCore c a d cb s).2 =
          repliedResolutionIds s := by
        unfold repliedResolutionIds
        rw [hres, List.filter_append]
        simp
      rw [he]; exact hs.repliedSorted
    · intro r hr hv w hw2
      rw [hwt] at hw2
      rw [hres] at hr
      rcases List.mem_append.mp hr with hr | hr
      · exact hs.resBeforeWait r hr hv w hw2
      · rw [List.mem_singleton] at hr
        subst hr
        exact absurd hv (by simp)
  · have hres := executeCore_resolutions_rep c a d cb s hc
    have hwt := executeCore_cmdWaiters_rep c a d cb s hc
    refine ⟨executeCore_resBound c a d cb s hs.resBound, ?_, ?_, ?_, ?_⟩
    · intro w hw2
      rw [hwt] at hw2
      rw [hn]
      rcases List.mem_append.mp hw2 with hw2 | hw2
      · exact Nat.lt_succ_of_lt (hs.waitBound w hw2)
      · rw [List.mem_singleton] at hw2
        subst hw2
        exact Nat.lt_succ_self _
    · rw [hwt, List.map_append, List.pairwise_append]
      refine ⟨hs.waitSorted, by simp, ?_⟩
      intro x hx y hy
      simp only [List.map_cons, List.map_nil, List.mem_singleton] at hy
      subst hy
      obtain ⟨w, hw2, hfid⟩ := List.mem_map.mp hx
      rw [← hfid]
      exact hs.waitBound w hw2
    · have he : repliedResolutionIds (executeCore c a d cb s).2 =
          repliedResolutionIds s := by
        unfold repliedResolutionIds
        rw [hres]
      rw [he]; exact hs.repliedSorted
    · intro r hr hv w hw2
      rw [hres] at hr
      rw [hwt] at hw2
      rcases List.mem_append.mp hw2 with hw2 | hw2
      · exact hs.resBeforeWait r hr hv w hw2
      · rw [List.mem_singleton] at hw2
        subst hw2
        exact hs.resBound r hr

theorem popAndResolve_connInv (p : String) (s s' : ConnState)
    (h : popAndResolve p s = some s') (hs : ConnInv s) : ConnInv s' := by
  cases hw : s.cmdWaiters with
  | nil =>
    simp only [popAndResolve, hw] at h
    cases h
  | cons w rest =>
    have hwmem : w ∈ s.cmdWaiters := by rw [hw]; exact List.mem_cons_self _ _
    have hsub : ∀ x ∈ rest, x ∈ s.cmdWaiters := by
      intro x hx
      rw [hw]
      exact List.mem_cons_of_mem _ hx
    have hsorted := hs.waitSorted
    rw [hw, List.map_cons, List.pairwise_cons] at hsorted
    simp only [popAndResolve, hw] at h
    split at h
    · obtain rfl := Option.some.inj h
      exact ⟨hs.resBound, fun x hx => hs.waitBound x (hsub x hx), hsorted.2,
        hs.repliedSorted, fun r hr hv x hx => hs.resBeforeWait r hr hv x (hsub x hx)⟩
    · obtain rfl := Option.some.inj h
      have hcore : ConnInv
          { s with cmdWaiters := rest
                   resolutions := s.resolutions ++ [⟨w.fid, true, p⟩] } := by
        refine ⟨?_, ?_, ?_, ?_, ?_⟩
        · intro r hr
          rcases List.mem_append.mp hr with hr | hr
          · exact hs.resBound r hr
          · rw [List.mem_singleton] at hr
            subst hr
            exact hs.waitBound w hwmem
        · intro x hx
          exact hs.waitBound x (hsub x hx)
        · exact hsorted.2
        · show List.Pairwise _ (repliedResolutionIds _)
          have he : repliedResolutionIds
              { s with cmdWaiters := rest
                       resolutions := s.resolutions ++ [⟨w.fid, true, p⟩] } =
              repliedResolutionIds s ++ [w.fid] := by
            unfold repliedResolutionIds
            rw [List.filter_append]
            simp
          rw [he, List.pairwise_append]
          refine ⟨hs.repliedSorted, by simp, ?_⟩
          intro x hx y hy
          rw [List.mem_singleton] at hy
          subst hy
          obtain ⟨r, hr, hv, hfid⟩ := (repliedResolutionIds_mem s x).mp hx
          rw [← hfid]
          exact hs.resBeforeWait r hr hv w hwmem
        · intro r hr hv x hx
          rcases List.mem_append.mp hr with hr | hr
          · exact hs.resBeforeWait r hr hv x (hsub x hx)
          · rw [List.mem_singleton] at hr
            subst hr
            show w.fid < x.fid
            exact hsorted.1 x.fid (List.mem_map.mpr ⟨x, hx, rfl⟩)
      cases w.cb with
      | none => exact hcore
      | some c =>
        cases c
        exact ⟨hcore.resBound, hcore.waitBound, hcore.waitSorted,
          hcore.repliedSorted, hcore.resBeforeWait⟩

theorem parseFrameObj_connInv (fr : Frame) (s s' : ConnState)
    (h : parseFrameObj fr s = some s') (hs : ConnInv s) : ConnInv s' := by
  cases fr with
  | response p =>
    simp only [parseFrameObj] at h
    split at h
    · obtain rfl := Option.some.inj h
      exact ⟨hs.resBound, hs.waitBound, hs.waitSorted, hs.repliedSorted,
        hs.resBeforeWait⟩
    · exact popAndResolve_connInv p s s' h hs
  | error p =>
    simp only [parseFrameObj] at h
    exact popAndResolve_connInv p s s' h hs
  | message ts att mid body =>
    simp only [parseFrameObj] at h
    obtain rfl := Option.some.inj h
    exact ⟨hs.resBound, hs.waitBound, hs.waitSorted, hs.repliedSorted,
      hs.resBeforeWait⟩

theorem drainFrames_connInv (frames : List Frame) :
    ∀ s s', drainFrames frames s = some s' → ConnInv s → ConnInv s' := by
  induction frames with
  | nil =>
    intro s s' h hs
    obtain rfl := Option.some.inj h
    exact hs
  | cons fr rest ih =>
    intro s s' h hs
    simp only [drainFrames] at h
    cases hm : parseFrameObj fr s with
    | none => rw [hm] at h; cases h
    | some s1 =>
      rw [hm] at h
      exact ih s1 s' h (parseFrameObj_connInv fr s s1 hm hs)

theorem readStep_connInv (frames : List Frame) (s s' : ConnState)
    (h : readStep frames s = some s') (hs : ConnInv s) : ConnInv s' := by
  unfold readStep at h
  split at h
  · obtain rfl := Option.some.inj h
    exact ⟨hs.resBound, hs.waitBound, hs.waitSorted, hs.repliedSorted,
      hs.resBeforeWait⟩
  · refine drainFrames_connInv _ _ _ h ⟨hs.resBound, hs.waitBound, hs.waitSorted,
      hs.repliedSorted, hs.resBeforeWait⟩

theorem cancelFut_connInv (fid : Nat) (s : ConnState) (hs : ConnInv s) :
    ConnInv (cancelFut fid s) := by
  have hfids : (cancelFut fid s).cmdWaiters.map (fun w => w.fid) =
      s.cmdWaiters.map (fun w => w.fid) := by
    unfold cancelFut
    rw [List.map_map]
    refine List.map_congr_left ?_
    intro w _
    simp only [Function.comp]
    split <;> rfl
  have hmem : ∀ w2 ∈ (cancelFut fid s).cmdWaiters,
      ∃ w ∈ s.cmdWaiters, w2.fid = w.fid := by
    intro w2 hw2
    unfold cancelFut at hw2
    obtain ⟨w, hw, hfw⟩ := List.mem_map.mp hw2
    refine ⟨w, hw, ?_⟩
    rw [← hfw]
    split <;> rfl
  refine ⟨hs.resBound, ?_, ?_, hs.repliedSorted, ?_⟩
  · intro w2 hw2
    obtain ⟨w, hw, hfid⟩ := hmem w2 hw2
    rw [hfid]
    exact hs.waitBound w hw
  · rw [hfids]; exact hs.waitSorted
  · intro r hr hv w2 hw2
    obtain ⟨w, hw, hfid⟩ := hmem w2 hw2
    rw [hfid]
    exact hs.resBeforeWait r hr hv w hw

theorem doClose_connInv (s : ConnState) (hs : ConnInv s) : ConnInv (doClose s) := by
  unfold doClose
  split
  · exact hs
  · exact ⟨hs.resBound, hs.waitBound, hs.waitSorted, hs.repliedSorted,
      hs.resBeforeWait⟩

theorem applyEv_connInv (e : Ev) (s s' : ConnState) (h : applyEv e s = some s')
    (hs : ConnInv s) : ConnInv s' := by
  cases e with
  | exec c a d cb =>
    obtain rfl := Option.some.inj h
    exact executeCore_connInv c a d cb s hs
  | read frames => exact readStep_connInv frames s s' h hs
  | cancel fid =>
    obtain rfl := Option.some.inj h
    exact cancelFut_connInv fid s hs
  | close =>
    obtain rfl := Option.some.inj h
    exact doClose_connInv s hs
  | eof =>
    obtain rfl := Option.some.inj h
    exact doClose_connInv _ ⟨hs.resBound, hs.waitBound, hs.waitSorted,
      hs.repliedSorted, hs.resBeforeWait⟩

theorem run_connInv (tr : List Ev) :
    ∀ s s', run tr s = some s' → ConnInv s → ConnInv s' := by
  induction tr with
  | nil =>
    intro s s' h hs
    obtain rfl := Option.some.inj h
    exact hs
  | cons e tr ih =>
    intro s s' h hs
    simp only [run] at h
    cases he : applyEv e s with
    | none => rw [he] at h; cases h
    | some s1 =>
      rw [he] at h
      exact ih s1 s' h (applyEv_connInv e s s1 he hs)

theorem connInv_init : ConnInv initConn := by
  refine ⟨?_, ?_, ?_, ?_, ?_⟩ <;> simp [initConn, repliedResolutionIds]

/-- C2 (amended): on a single connection, the fire-and-forget futures
resolve synchronously at submission with `"OK"`, and the replied-class
futures (those that enqueue a waiter) that do get resolved are resolved in
strictly increasing order of their allocation, i.e. in submission order.
(The claim as stated — every future resolves no later than any
later-submitted future — fails when a fire-and-forget command follows a
replied command; see the counterexample.) -/
theorem submission_order_c2 (tr : List Ev) (s : ConnState)
    (h : run tr initConn = some s) :
    List.Pairwise (fun x y => x < y) (repliedResolutionIds s) ∧
    (∀ c a d cb, c ∈ fireAndForget →
      awaitResolved (executeCore c a d cb s).1 (executeCore c a d cb s).2 = some "OK") := by
  have hinv := run_connInv tr initConn s h connInv_init
  exact ⟨hinv.repliedSorted,
    fun c a d cb hc => awaitResolved_executeCore_ff c a d cb s hc hinv.resBound⟩

/-- C2 witness: a SUB answered by the broker, then an RDY — the replied
resolutions come out in submission order. -/
theorem submission_order_c2_w :
    List.Pairwise (fun x y => x < y)
      (repliedResolutionIds (runD [Ev.exec "SUB" ["t", "c"] none none,
        Ev.read [Frame.response "OK"], Ev.exec "RDY" ["1"] none none])) ∧
    awaitResolved
      (executeCore "NOP" [] none none (runD [Ev.exec "SUB" ["t", "c"] none none,
        Ev.read [Frame.response "OK"], Ev.exec "RDY" ["1"] none none])).1
      (executeCore "NOP" [] none none (runD [Ev.exec "SUB" ["t", "c"] none none,
        Ev.read [Frame.response "OK"], Ev.exec "RDY" ["1"] none none])).2 = some "OK" := by
  have h := submission_order_c2 [Ev.exec "SUB" ["t", "c"] none none,
    Ev.read [Frame.response "OK"], Ev.exec "RDY" ["1"] none none]
    (runD [Ev.exec "SUB" ["t", "c"] none none,
      Ev.read [Frame.response "OK"], Ev.exec "RDY" ["1"] none none]) (by decide)
  exact ⟨h.1, h.2 "NOP" [] none none (by decide)⟩

/-- C2 counterexample: submit `SUB` (future 0), then `RDY` (future 1),
then the broker's RESPONSE to the SUB arrives.  The resolution log comes
out `[1, 0]`: the future of the earlier-submitted `SUB` is resolved
strictly later than the future of the later-submitted `RDY`, so futures do
not resolve in submission order. -/
theorem submission_order_c2_cex :
    run [Ev.exec "SUB" ["topic", "chan"] none none, Ev.exec "RDY" ["5"] none none,
      Ev.read [Frame.response "OK"]] initConn =
      some (runD [Ev.exec "SUB" ["topic", "chan"] none none,
        Ev.exec "RDY" ["5"] none none, Ev.read [Frame.response "OK"]]) ∧
    resolvedIds (runD [Ev.exec "SUB" ["topic", "chan"] none none,
      Ev.exec "RDY" ["5"] none none, Ev.read [Frame.response "OK"]]) = [1, 0] := by
  constructor <;> decide

theorem parseFrameObj_c3 (fr : Frame) (s s' : ConnState)
    (h : parseFrameObj fr s = some s') :
    (s.inFlight = (s.msgCount : Int) - s.finCount - s.reqCount →
      s'.inFlight = (s'.msgCount : Int) - s'.finCount - s'.reqCount) ∧
    (0 ≤ s.inFlight → 0 ≤ s'.inFlight) := by
  cases fr with
  | response p =>
    simp only [parseFrameObj] at h
    split at h
    · obtain rfl := Option.some.inj h
      exact ⟨fun he => he, fun hn => hn⟩
    · obtain ⟨hst, hif, hmsg, _⟩ := popAndResolve_stable p s s' h
      simp only [stableFields, Prod.mk.injEq] at hst
      rw [hif, hmsg, hst.2.2.2.2.2.2.2.2.2.2.1, hst.2.2.2.2.2.2.2.2.2.2.2]
      exact ⟨fun he => he, fun hn => hn⟩
  | error p =>
    simp only [parseFrameObj] at h
    obtain ⟨hst, hif, hmsg, _⟩ := popAndResolve_stable p s s' h
    simp only [stableFields, Prod.mk.injEq] at hst
    rw [hif, hmsg, hst.2.2.2.2.2.2.2.2.2.2.1, hst.2.2.2.2.2.2.2.2.2.2.2]
    exact ⟨fun he => he, fun hn => hn⟩
  | message ts att mid body =>
    simp only [parseFrameObj] at h
    obtain rfl := Option.some.inj h
    constructor
    · intro he
      show s.inFlight + 1 = ((s.msgCount + 1 : Nat) : Int) - s.finCount - s.reqCount
      push_cast
      omega
    · intro hn
      show 0 ≤ s.inFlight + 1
      omega

theorem drainFrames_c3 (frames : List Frame) :
    ∀ s s', drainFrames frames s = some s' →
      (s.inFlight = (s.msgCount : Int) - s.finCount - s.reqCount →
        s'.inFlight = (s'.msgCount : Int) - s'.finCount - s'.reqCount) ∧
      (0 ≤ s.inFlight → 0 ≤ s'.inFlight) := by
  induction frames with
  | nil =>
    intro s s' h
    obtain rfl := Option.some.inj h
    exact ⟨fun he => he, fun hn => hn⟩
  | cons fr rest ih =>
    intro s s' h
    simp only [drainFrames] at h
    cases hm : parseFrameObj fr s with
    | none => rw [hm] at h; cases h
    | some s1 =>
      rw [hm] at h
      have h1 := parseFrameObj_c3 fr s s1 hm
      have h2 := ih s1 s' h
      exact ⟨fun he => h2.1 (h1.1 he), fun hn => h2.2 (h1.2 hn)⟩

theorem readStep_c3 (frames : List Frame) (s s' : ConnState)
    (h : readStep frames s = some s') :
    (s.inFlight = (s.msgCount : Int) - s.finCount - s.reqCount →
      s'.inFlight = (s'.msgCount : Int) - s'.finCount - s'.reqCount) ∧
    (0 ≤ s.inFlight → 0 ≤ s'.inFlight) := by
  unfold readStep at h
  split at h
  · obtain rfl := Option.some.inj h
    exact ⟨fun he => he, fun hn => hn⟩
  · unfold readBuffer at h
    have h2 := drainFrames_c3 _ _ _ h
    exact ⟨fun he => h2.1 he, fun hn => h2.2 hn⟩

theorem applyEv_nonneg (e : Ev) (s s' : ConnState) (h : applyEv e s = some s')
    (hn : 0 ≤ s.inFlight) : 0 ≤ s'.inFlight := by
  cases e with
  | exec c a d cb =>
    obtain rfl := Option.some.inj h
    by_cases hfr : c = "FIN" ∨ c = "REQ"
    · rw [(executeCore_track_finreq c a d cb s hfr).1]
      exact le_max_left 0 _
    · rw [(executeCore_track_other c a d cb s hfr).1]
      exact hn
  | read frames => exact (readStep_c3 frames s s' h).2 hn
  | cancel fid =>
    obtain rfl := Option.some.inj h
    exact hn
  | close =>
    obtain rfl := Option.some.inj h
    unfold close doClose
    split
    · exact hn
    · exact hn
  | eof =>
    obtain rfl := Option.some.inj h
    unfold eofClose doClose
    split
    · exact hn
    · exact hn

theorem run_nonneg (tr : List Ev) :
    ∀ s s', run tr s = some s' → 0 ≤ s.inFlight → 0 ≤ s'.inFlight := by
  induction tr with
  | nil =>
    intro s s' h hn
    obtain rfl := Option.some.inj h
    exact hn
  | cons e tr ih =>
    intro s s' h hn
    simp only [run] at h
    cases he : applyEv e s with
    | none => rw [he] at h; cases h
    | some s1 =>
      rw [he] at h
      exact ih s1 s' h (applyEv_nonneg e s s1 he hn)

theorem applyEv_c3eq (e : Ev) (s s' : ConnState) (h : applyEv e s = some s')
    (hnc : noClampEv e s = true)
    (he : s.inFlight = (s.msgCount : Int) - s.finCount - s.reqCount) :
    s'.inFlight = (s'.msgCount : Int) - s'.finCount - s'.reqCount := by
  cases e with
  | exec c a d cb =>
    obtain rfl := Option.some.inj h
    obtain ⟨_, _, _, _, _, _, _, _, _, _, _, hmsg⟩ := executeCore_preserved c a d cb s
    by_cases hfr : c = "FIN" ∨ c = "REQ"
    · simp only [noClampEv, if_pos hfr, decide_eq_true_eq] at hnc
      have ht := executeCore_track_finreq c a d cb s hfr
      rw [ht.1, ht.2.1, ht.2.2, hmsg]
      rcases hfr with h1 | h1
      · subst h1
        rw [if_pos rfl, if_neg (by decide)]
        push_cast
        omega
      · subst h1
        rw [if_neg (by decide), if_pos rfl]
        push_cast
        omega
    · have ht := executeCore_track_other c a d cb s hfr
      rw [ht.1, ht.2.1, ht.2.2, hmsg]
      exact he
  | read frames => exact (readStep_c3 frames s s' h).1 he
  | cancel fid =>
    obtain rfl := Option.some.inj h
    exact he
  | close =>
    obtain rfl := Option.some.inj h
    unfold close doClose
    split
    · exact he
    · exact he
  | eof =>
    obtain rfl := Option.some.inj h
    unfold eofClose doClose
    split
    · exact he
    · exact he

theorem run_c3eq (tr : List Ev) :
    ∀ s s', run tr s = some s' → noClampTrace tr s = true →
      s.inFlight = (s.msgCount : Int) - s.finCount - s.reqCount →
      s'.inFlight = (s'.msgCount : Int) - s'.finCount - s'.reqCount := by
  induction tr with
  | nil =>
    intro s s' h _ he
    obtain rfl := Option.some.inj h
    exact he
  | cons e tr ih =>
    intro s s' h hnc he
    simp only [run] at h
    cases hev : applyEv e s with
    | none => rw [hev] at h; cases h
    | some s1 =>
      rw [hev] at h
      simp only [noClampTrace, hev, Bool.and_eq_true] at hnc
      exact ih s1 s' h hnc.2 (applyEv_c3eq e s s1 hev hnc.1 he)

/-- C3 (amended): the in-flight counter is never negative; each `FIN` or
`REQ` execute decrements it with a floor of 0, while `TOUCH` and `NOP`
leave it unchanged; and along any trace in which no `FIN`/`REQ` is executed
with the counter already at zero (no clamping), the counter equals
`#MESSAGE frames − #FIN − #REQ`.  (Without that proviso the stated
equality fails; see the counterexample.) -/
theorem in_flight_c3 (tr : List Ev) (s : ConnState) (h : run tr initConn = some s) :
    0 ≤ s.inFlight ∧
    (noClampTrace tr initConn = true →
      s.inFlight = (s.msgCount : Int) - s.finCount - s.reqCount) ∧
    ∀ a d cb,
      (executeCore "FIN" a d cb s).2.inFlight = max 0 (s.inFlight - 1) ∧
      (executeCore "REQ" a d cb s).2.inFlight = max 0 (s.inFlight - 1) ∧
      (executeCore "TOUCH" a d cb s).2.inFlight = s.inFlight ∧
      (executeCore "NOP" a d cb s).2.inFlight = s.inFlight := by
  refine ⟨run_nonneg tr initConn s h (by simp [initConn]),
    fun hnc => run_c3eq tr initConn s h hnc (by simp [initConn]),
    fun a d cb => ⟨(executeCore_track_finreq "FIN" a d cb s (Or.inl rfl)).1,
      (executeCore_track_finreq "REQ" a d cb s (Or.inr rfl)).1,
      (executeCore_track_other "TOUCH" a d cb s (by decide)).1,
      (executeCore_track_other "NOP" a d cb s (by decide)).1⟩⟩

/-- C3 witness: one MESSAGE then its FIN — the counter goes 0, 1, 0 and
matches the count difference. -/
theorem in_flight_c3_w :
    0 ≤ (runD [Ev.read [Frame.message 0 1 "m1" "b"],
      Ev.exec "FIN" ["m1"] none none]).inFlight ∧
    (runD [Ev.read [Frame.message 0 1 "m1" "b"],
      Ev.exec "FIN" ["m1"] none none]).inFlight =
      ((runD [Ev.read [Frame.message 0 1 "m1" "b"],
        Ev.exec "FIN" ["m1"] none none]).msgCount : Int) -
      (runD [Ev.read [Frame.message 0 1 "m1" "b"],
        Ev.exec "FIN" ["m1"] none none]).finCount -
      (runD [Ev.read [Frame.message 0 1 "m1" "b"],
        Ev.exec "FIN" ["m1"] none none]).reqCount := by
  have h := in_flight_c3 [Ev.read [Frame.message 0 1 "m1" "b"],
    Ev.exec "FIN" ["m1"] none none]
    (runD [Ev.read [Frame.message 0 1 "m1" "b"], Ev.exec "FIN" ["m1"] none none])
    (by decide)
  exact ⟨h.1, h.2.1 (by decide)⟩

/-- C3 counterexample: executing a single `FIN` on a fresh connection (no
MESSAGE received) leaves `in_flight` clamped at 0, but
`#MESSAGE − #FIN − #REQ = −1`, so the claimed equality fails. -/
theorem in_flight_c3_cex :
    run [Ev.exec "FIN" ["m1"] none none] initConn =
      some (runD [Ev.exec "FIN" ["m1"] none none]) ∧
    (runD [Ev.exec "FIN" ["m1"] none none]).inFlight = 0 ∧
    (runD [Ev.exec "FIN" ["m1"] none none]).msgCount = 0 ∧
    (runD [Ev.exec "FIN" ["m1"] none none]).finCount = 1 ∧
    (runD [Ev.exec "FIN" ["m1"] none none]).reqCount = 0 ∧
    ¬((runD [Ev.exec "FIN" ["m1"] none none]).inFlight =
      ((runD [Ev.exec "FIN" ["m1"] none none]).msgCount : Int) -
      (runD [Ev.exec "FIN" ["m1"] none none]).finCount -
      (runD [Ev.exec "FIN" ["m1"] none none]).reqCount) := by
  refine ⟨by decide, by decide, by decide, by decide, by decide, by decide⟩

theorem finishUpgrading_fields (s s' : ConnState) (h : finishUpgrading s = some s') :
    s'.actions = s.actions ∧ s'.parserKind = s.parserKind ∧
    s'.tlsWrapped = s.tlsWrapped ∧ s'.isUpgrading = false := by
  unfold finishUpgrading at h
  cases hb : readBuffer s with
  | none => rw [hb] at h; cases h
  | some s1 =>
    rw [hb] at h
    have h2 : some ({ s1 with isUpgrading := false } : ConnState) = some s' := h
    obtain rfl := Option.some.inj h2
    have hst := readBuffer_stable2 s s1 hb
    simp only [stableFields2, Prod.mk.injEq] at hst
    exact ⟨hst.2.2.2.2.2.2.1, hst.2.2.2.2.2.2.2.1, hst.2.2.2.2.2.2.2.2.1, rfl⟩

theorem compressionStep_actions (f : Features) (s : ConnState) :
    (compressionStep f s).2.actions = s.actions ++
      (if f.snappy then [UpgradeAction.snappy]
       else if f.deflate then [UpgradeAction.deflate] else []) := by
  unfold compressionStep upgradeToSnappy upgradeToDeflate
  split
  · simp
  · split
    · simp
    · simp

theorem tlsStep_actions (f : Features) (s : ConnState) :
    (if f.tls_v1 then upgradeToTls s else s).actions = s.actions ++
      (if f.tls_v1 then [UpgradeAction.tls] else []) := by
  unfold upgradeToTls
  split
  · simp
  · simp

theorem identifyCont_ok (f : Features) (s : ConnState)
    (out : String × Option Nat × ConnState)
    (h : identifyCont "OK" f s = some out) :
    out.2.2.actions = s.actions ∧ out.2.2.parserKind = s.parserKind ∧
    out.2.2.tlsWrapped = s.tlsWrapped ∧ out.2.1 = none ∧
    out.2.2.isUpgrading = false := by
  simp only [identifyCont, if_pos rfl] at h
  cases hfin : finishUpgrading s with
  | none => rw [hfin] at h; cases h
  | some s1 =>
    rw [hfin] at h
    have h2 : some ("OK", (none : Option Nat), s1) = some out := h
    obtain rfl := Option.some.inj h2
    have hf := finishUpgrading_fields s s1 hfin
    exact ⟨hf.1, hf.2.1, hf.2.2.1, rfl, hf.2.2.2⟩

theorem identifyCont_upgrades (resp : String) (f : Features) (s : ConnState)
    (out : String × Option Nat × ConnState)
    (hne : resp ≠ "OK") (h : identifyCont resp f s = some out) :
    out.2.2.actions = s.actions ++
      (if f.tls_v1 then [UpgradeAction.tls] else []) ++
      (if f.snappy then [UpgradeAction.snappy]
       else if f.deflate then [UpgradeAction.deflate] else []) ∧
    out.2.2.isUpgrading = false := by
  simp only [identifyCont, if_neg hne] at h
  cases hfin : finishUpgrading
      (compressionStep f (if f.tls_v1 then upgradeToTls s else s)).2 with
  | none => rw [hfin] at h; cases h
  | some s2 =>
    rw [hfin] at h
    have h2 : some (resp,
        (compressionStep f (if f.tls_v1 then upgradeToTls s else s)).1, s2) =
        some out := h
    obtain rfl := Option.some.inj h2
    have hf := finishUpgrading_fields _ _ hfin
    refine ⟨?_, hf.2.2.2⟩
    show s2.actions = _
    rw [hf.1, compressionStep_actions, tlsStep_actions]

/-- C6 (amended): sending IDENTIFY does not raise the upgrading flag — the
command bytes go out with the flag in whatever state it was, and the
`_start_upgrading` callback travels on the waiter; the flag is raised when
the ingress loop dispatches the (non-heartbeat) IDENTIFY response to that
waiter; a literal `"OK"` reply performs no upgrade; otherwise the TLS
upgrade (when `tls_v1` is granted) precedes the single optional compression
upgrade (`snappy` wins over `deflate`); the flag is cleared by
`_finish_upgrading` at the end; and while the flag is raised an ingress
iteration only buffers frames, draining nothing. -/
theorem identify_handshake_c6 (cfg p resp : String) (f : Features) (s : ConnState)
    (fid : Nat) (rest : List Waiter) (frames : List Frame)
    (out out2 : String × Option Nat × ConnState) :
    ((identifySend cfg s).2.isUpgrading = s.isUpgrading ∧
      (identifySend cfg s).2.written =
        s.written ++ [encodeCommand "IDENTIFY" [] (some cfg)] ∧
      (identifySend cfg s).2.cmdWaiters =
        s.cmdWaiters ++ [⟨s.nextFut, false, some Cb.startUpgrading⟩]) ∧
    (p ≠ HEARTBEAT →
      parseFrameObj (Frame.response p)
          { s with cmdWaiters := ⟨fid, false, some Cb.startUpgrading⟩ :: rest } =
        some { s with cmdWaiters := rest
                      resolutions := s.resolutions ++ [⟨fid, true, p⟩]
                      isUpgrading := true }) ∧
    (identifyCont "OK" f s = some out →
      out.2.2.actions = s.actions ∧ out.2.2.parserKind = s.parserKind ∧
      out.2.2.tlsWrapped = s.tlsWrapped ∧ out.2.1 = none ∧
      out.2.2.isUpgrading = false) ∧
    (resp ≠ "OK" → identifyCont resp f s = some out2 →
      out2.2.2.actions = s.actions ++
        (if f.tls_v1 then [UpgradeAction.tls] else []) ++
        (if f.snappy then [UpgradeAction.snappy]
         else if f.deflate then [UpgradeAction.deflate] else []) ∧
      out2.2.2.isUpgrading = false) ∧
    (s.isUpgrading = true →
      readStep frames s = some { s with parserFrames := s.parserFrames ++ frames }) := by
  refine ⟨⟨?_, ?_, ?_⟩, ?_, identifyCont_ok f s out,
    fun hne h => identifyCont_upgrades resp f s out2 hne h,
    readStep_upgrading frames s⟩
  · exact (executeCore_preserved "IDENTIFY" [] (some cfg) (some Cb.startUpgrading) s).2.2.2.2.2.1
  · exact executeCore_written "IDENTIFY" [] (some cfg) (some Cb.startUpgrading) s
  · exact executeCore_cmdWaiters_rep "IDENTIFY" [] (some cfg)
      (some Cb.startUpgrading) s (by decide)
  · intro hp
    simp [parseFrameObj, popAndResolve, applyCb, hp]

/-- C6 witness: on concrete states, the IDENTIFY waiter carries the
callback, the flag goes up when the response is dispatched, an `"OK"`
reply upgrades nothing, a `tls_v1 ∧ snappy` grant performs the TLS action
before the snappy action and nothing else, and a read during the upgrade
only buffers. -/
theorem identify_handshake_c6_w :
    (identifySend "cfg" initConn).2.cmdWaiters =
      [⟨0, false, some Cb.startUpgrading⟩] ∧
    c6ParsedState.isUpgrading = true ∧
    c6OutB.2.2.actions = [UpgradeAction.tls, UpgradeAction.snappy] ∧
    c6OutB.2.2.isUpgrading = false ∧
    readStep [Frame.response "x"] c6Upgrading =
      some { c6Upgrading with parserFrames := [Frame.response "x"] } := by
  have hA := identify_handshake_c6 "cfg" "p" "FEAT" ⟨false, false, false⟩ initConn 0 []
    [Frame.response "x"] ("OK", none, initConn) ("OK", none, initConn)
  have hB := identify_handshake_c6 "cfg" "p" "FEAT" ⟨true, true, false⟩ c6Upgrading 0 []
    [Frame.response "x"] ("OK", none, initConn) c6OutB
  have h3 := hA.2.2.1 (by decide)
  have h4 := hB.2.2.2.1 (by decide) (by decide)
  refine ⟨(hA.1.2.2).trans (by decide), ?_, h4.1.trans (by decide), h4.2,
    hB.2.2.2.2 (by decide)⟩
  · have h2 := hA.2.1 (by decide)
    unfold c6ParsedState
    rw [h2]
    rfl

/-- C6 counterexample: the IDENTIFY command bytes are written to the
transport while the upgrading flag is still down — the flag is not raised
before sending IDENTIFY, because the `cb` passed to `execute` is only
stored with the waiter and invoked when the response arrives. -/
theorem identify_handshake_c6_cex :
    (identifySend "cfg" initConn).2.written =
      [encodeCommand "IDENTIFY" [] (some "cfg")] ∧
    (identifySend "cfg" initConn).2.isUpgrading = false := by
  exact ⟨by decide, by decide⟩

theorem sentinelRounds_zero (exits : List Nat) :
    ∀ r r', sentinelRounds exits r = some r' → r'.num_readers = 0 := by
  induction exits with
  | nil =>
    intro r r' h
    simp only [sentinelRounds] at h
    split at h
    · obtain rfl := Option.some.inj h
      assumption
    · cases h
  | cons d ds ih =>
    intro r r' h
    simp only [sentinelRounds] at h
    split at h
    · obtain rfl := Option.some.inj h
      assumption
    · exact ih _ r' h

theorem sentinelRounds_sub (exits : List Nat) :
    ∀ r r', sentinelRounds exits r = some r' → r'.is_subscribe = r.is_subscribe := by
  induction exits with
  | nil =>
    intro r r' h
    simp only [sentinelRounds] at h
    split at h
    · obtain rfl := Option.some.inj h
      rfl
    · cases h
  | cons d ds ih =>
    intro r r' h
    simp only [sentinelRounds] at h
    split at h
    · obtain rfl := Option.some.inj h
      rfl
    · exact (ih _ r' h).trans rfl

theorem reqQueued_length (m : QueuedMsg) (conns : List ConnState) :
    (reqQueued m conns).length = conns.length := by
  unfold reqQueued
  split
  · rfl
  · split
    · rfl
    · simp

theorem reqQueued_written (m : QueuedMsg) (conns : List ConnState) (j : Nat)
    (c2 : ConnState) (h : (reqQueued m conns).get? j = some c2) :
    ∃ c t, conns.get? j = some c ∧ c2.written = c.written ++ t := by
  unfold reqQueued at h
  split at h
  · exact ⟨c2, [], h, by simp⟩
  · split at h
    · exact ⟨c2, [], h, by simp⟩
    · rename_i c hc
      by_cases hj : m.connIdx = j
      · subst hj
        have hlt : m.connIdx < conns.length := by
          by_contra hge
          rw [List.get?_eq_none.mpr (le_of_not_lt hge)] at hc
          cases hc
        rw [List.get?_set_eq_of_lt _ hlt] at h
        obtain rfl := Option.some.inj h
        exact ⟨c, [encodeCommand "REQ" [m.message_id, "0"] none], hc,
          executeCore_written "REQ" [m.message_id, "0"] none none c⟩
      · rw [List.get?_set_ne _ _ hj] at h
        exact ⟨c2, [], h, by simp⟩

theorem drainQueue_length (qs : List (Option QueuedMsg)) :
    ∀ conns, (drainQueue qs conns).length = conns.length := by
  induction qs with
  | nil => intro conns; rfl
  | cons q rest ih =>
    intro conns
    cases q with
    | none => exact ih conns
    | some m => exact (ih (reqQueued m conns)).trans (reqQueued_length m conns)

theorem drainQueue_written (qs : List (Option QueuedMsg)) :
    ∀ conns j c2, (drainQueue qs conns).get? j = some c2 →
      ∃ c t, conns.get? j = some c ∧ c2.written = c.written ++ t := by
  induction qs with
  | nil =>
    intro conns j c2 h
    exact ⟨c2, [], h, by simp⟩
  | cons q rest ih =>
    intro conns j c2 h
    cases q with
    | none => exact ih conns j c2 h
    | some m =>
      obtain ⟨c1, t1, h1, ht1⟩ := ih (reqQueued m conns) j c2 h
      obtain ⟨c0, t0, h0, ht0⟩ := reqQueued_written m conns j c1 h1
      exact ⟨c0, t0 ++ t1, h0, by rw [ht1, ht0, List.append_assoc]⟩

theorem drainQueue_req (qs : List (Option QueuedMsg)) :
    ∀ conns (m : QueuedMsg), some m ∈ qs → m.is_processed = false →
      m.connIdx < conns.length →
      ∃ c2, (drainQueue qs conns).get? m.connIdx = some c2 ∧
        encodeCommand "REQ" [m.message_id, "0"] none ∈ c2.written := by
  induction qs with
  | nil =>
    intro conns m hm
    cases hm
  | cons q rest ih =>
    intro conns m hm hproc hlt
    rcases List.mem_cons.mp hm with hq | hm2
    · obtain rfl := hq.symm
      have hbase : ∃ c1, (reqQueued m conns).get? m.connIdx = some c1 ∧
          encodeCommand "REQ" [m.message_id, "0"] none ∈ c1.written := by
        unfold reqQueued
        rw [if_neg (by simp [hproc])]
        cases hg : conns.get? m.connIdx with
        | none =>
          rw [List.get?_eq_none] at hg
          omega
        | some c =>
          rw [List.get?_set_eq_of_lt _ hlt]
          refine ⟨_, rfl, ?_⟩
          rw [executeCore_written]
          exact List.mem_append.mpr (Or.inr (by simp))
      obtain ⟨c1, hg1, hmem1⟩ := hbase
      have hlen : m.connIdx < (drainQueue rest (reqQueued m conns)).length := by
        rw [drainQueue_length, reqQueued_length]
        exact hlt
      cases hg4 : (drainQueue rest (reqQueued m conns)).get? m.connIdx with
      | none =>
        rw [List.get?_eq_none] at hg4
        omega
      | some c4 =>
        obtain ⟨c, t, hsrc, hext⟩ := drainQueue_written rest (reqQueued m conns)
          m.connIdx c4 hg4
        rw [hg1] at hsrc
        obtain rfl := Option.some.inj hsrc
        exact ⟨c4, hg4, by rw [hext]; exact List.mem_append.mpr (Or.inl hmem1)⟩
    · cases q with
      | none => exact ih conns m hm2 hproc hlt
      | some m0 =>
        have hlt2 : m.connIdx < (reqQueued m0 conns).length := by
          rw [reqQueued_length]
          exact hlt
        exact ih (reqQueued m0 conns) m hm2 hproc hlt2

theorem setMaxInFlight_get (n : Nat) (r : ReaderState) (i : Nat) :
    (setMaxInFlight n r).connections.get? i =
      (r.connections.get? i).map
        (fun c => (executeCore "RDY" [toString n] none none c).2) := by
  simp [setMaxInFlight, List.get?_map]

/-- C7: a successful `unsubscribe` on a subscribed reader decomposes into
the four phases in order: (1) `RDY 0` is executed on every connection
(appearing in each connection's write log), then (2) the subscribed flag is
cleared, then (3) the sentinel polling loop runs until the active-consumer
count is zero, then (4) the inbox is drained and every remaining
unprocessed message gets `REQ <id> 0` executed on its connection. -/
theorem unsubscribe_c7 (exits : List Nat) (r r' : ReaderState)
    (h1 : r.is_subscribe = true) (h2 : unsubscribe exits r = .ok (some r')) :
    ∃ r3, sentinelRounds exits { setMaxInFlight 0 r with is_subscribe := false } =
        some r3 ∧
      r' = { r3 with connections := drainQueue r3.queue r3.connections, queue := [] } ∧
      r3.num_readers = 0 ∧
      r'.is_subscribe = false ∧
      r'.queue = [] ∧
      (∀ i, (setMaxInFlight 0 r).connections.get? i =
        (r.connections.get? i).map (fun c => (executeCore "RDY" ["0"] none none c).2)) ∧
      (∀ c : ConnState, (executeCore "RDY" ["0"] none none c).2.written =
        c.written ++ [encodeCommand "RDY" ["0"] none]) ∧
      (∀ m : QueuedMsg, some m ∈ r3.queue → m.is_processed = false →
        m.connIdx < r3.connections.length →
        ∃ c2, r'.connections.get? m.connIdx = some c2 ∧
          encodeCommand "REQ" [m.message_id, "0"] none ∈ c2.written) := by
  unfold unsubscribe at h2
  rw [h1] at h2
  rw [if_neg (by decide)] at h2
  cases hsr : sentinelRounds exits { setMaxInFlight 0 r with is_subscribe := false } with
  | none =>
    rw [hsr] at h2
    injection h2 with h3
    cases h3
  | some r3 =>
    rw [hsr] at h2
    injection h2 with h3
    obtain rfl := Option.some.inj h3
    refine ⟨r3, rfl, rfl, sentinelRounds_zero exits _ r3 hsr, ?_, rfl,
      fun i => setMaxInFlight_get 0 r i, fun c => executeCore_written _ _ _ _ c,
      fun m hm hp hlt => drainQueue_req r3.queue r3.connections m hm hp hlt⟩
    show r3.is_subscribe = false
    rw [sentinelRounds_sub exits _ r3 hsr]

/-- C7 witness: on a concrete subscribed reader with one consumer, one
connection and one unprocessed buffered message, unsubscribing drains and
re-queues that message and clears the flag. -/
theorem unsubscribe_c7_w :
    (okSomeReader (unsubscribe [1] c7Reader) c7Reader).is_subscribe = false ∧
    (∃ c2, (okSomeReader (unsubscribe [1] c7Reader) c7Reader).connections.get? 0 =
      some c2 ∧ encodeCommand "REQ" ["b", "0"] none ∈ c2.written) := by
  have h := unsubscribe_c7 [1] c7Reader
    (okSomeReader (unsubscribe [1] c7Reader) c7Reader) rfl (by rfl)
  obtain ⟨r3, hsr, hr, hnum, hsub, hq, hget, hwr, hreq⟩ := h
  have hv : sentinelRounds [1] { setMaxInFlight 0 c7Reader with is_subscribe := false } =
      some c7R3 := by decide
  rw [hv] at hsr
  obtain rfl := Option.some.inj hsr
  exact ⟨hsub, hreq ⟨0, "b", false⟩ (by decide) rfl (by decide)⟩

/-- C9: every reader entry point that requires a subscription —
`messages()`, `wait_messages()` and `unsubscribe()` — raises `ValueError`
when the subscribed flag is down, before reading the inbox, yielding
anything, bumping the consumer count or sending any command; the raise
leaves the reader state untouched. -/
theorem not_subscribed_c9 (r : ReaderState) (exits : List Nat)
    (h : r.is_subscribe = false) :
    messagesInit r = .error .valueError ∧
    waitMessagesInit r = .error .valueError ∧
    unsubscribe exits r = .error .valueError := by
  refine ⟨?_, ?_, ?_⟩ <;> simp [messagesInit, waitMessagesInit, unsubscribe, h]

/-- C9 witness: a concrete unsubscribed reader. -/
theorem not_subscribed_c9_w :
    messagesInit ⟨[initConn], [], false, 0⟩ = .error .valueError ∧
    waitMessagesInit ⟨[initConn], [], false, 0⟩ = .error .valueError ∧
    unsubscribe [] ⟨[initConn], [], false, 0⟩ = .error .valueError :=
  not_subscribed_c9 ⟨[initConn], [], false, 0⟩ [] rfl

end Nsqio
